import Mathlib

/-!
Verification of the headshot batch face-crop pipeline.

This file gives a shallow embedding of the Rust sources
(`src/processor.rs`, `src/gui.rs`, `src/gallery.rs`) and settles the
specification claims against it.

Modelling conventions:
* OpenCV `Rect` fields are `i32`; they are embedded as `Int` (no arithmetic
  here comes near the `i32` range, so no wrap-around modelling is needed).
* `Mat` is embedded by the only data the processing code reads from it:
  its `rows` and `cols` extents (`ImageDims`).
* The opaque external capabilities (image decoding, the cascade detector,
  crop writes) are inputs of the model: each input file carries the outcome
  the external world would produce for it.
* The Rust expression `((w.max(h)) as f64 * 1.1).round() as i32` is embedded
  as exact integer rounding of `11*m/10` half away from zero (`roundTenths`).
  This is exact for every `i32` argument `m`: the `f64` nearest to 1.1
  exceeds 11/10 by less than 9e-17, so the computed product differs from the
  real number `11*m/10` by well under 1e-6 for `|m| < 2^31`, while `11*m/10`
  is at least 1/10 away from the nearest rounding boundary unless it is
  exactly a half-integer (`m ≡ ±5 mod 10`), in which case the representation
  error is in the direction the rounding tie-break (away from zero) already
  takes.
-/

namespace Headshot

/-- `opencv::core::Rect`: `x`, `y` is the top-left corner. -/
structure Rect where
  x : Int
  y : Int
  width : Int
  height : Int
  deriving DecidableEq, Repr

/-- The extents of an `opencv::core::Mat` raster, all the processing code
reads from an image besides its pixels. -/
structure ImageDims where
  rows : Int
  cols : Int
  deriving DecidableEq, Repr

/-- Rounding of `n / 10` half away from zero, the behaviour of Rust
`f64::round` on the values that arise in `calculate_padded_rect`
(see the header comment for why the `f64` computation is exact here). -/
def roundTenths (n : Int) : Int :=
  if 0 ≤ n then (n + 5) / 10 else -((5 - n) / 10)

/-- The padding amount of `calculate_padded_rect` (processor.rs line 186):
`((face.width.max(face.height)) as f64 * 1.1).round() as i32`. -/
def padding (face : Rect) : Int :=
  roundTenths (11 * max face.width face.height)

/-- `calculate_padded_rect` (processor.rs lines 185-197): expand the face
rectangle by `padding` on every side, clamping to the image extents. -/
def calculate_padded_rect (face : Rect) (image : ImageDims) : Rect :=
  let pad := padding face
  let padded_top := max (face.y - pad) 0
  let padded_left := max (face.x - pad) 0
  let padded_bottom := min (face.y + face.height + pad) image.rows
  let padded_right := min (face.x + face.width + pad) image.cols
  { x := padded_left, y := padded_top,
    width := padded_right - padded_left, height := padded_bottom - padded_top }

/-- `outer` contains `inner`, expressed on the four edges. -/
def rectContains (outer inner : Rect) : Prop :=
  outer.x ≤ inner.x ∧ outer.y ≤ inner.y ∧
    inner.x + inner.width ≤ outer.x + outer.width ∧
    inner.y + inner.height ≤ outer.y + outer.height

instance (outer inner : Rect) : Decidable (rectContains outer inner) := by
  unfold rectContains; infer_instance

lemma padding_nonneg (face : Rect) (h : 0 ≤ max face.width face.height) :
    0 ≤ padding face := by
  unfold padding roundTenths
  rw [if_pos (by omega)]
  omega

lemma padding_eq_round (face : Rect) (h : 0 ≤ max face.width face.height) :
    padding face = round ((1.1 : ℚ) * ((max face.width face.height : Int) : ℚ)) := by
  unfold padding roundTenths
  rw [if_pos (by omega), round_eq]
  have h2 : (1.1 : ℚ) * ((max face.width face.height : Int) : ℚ) + 1 / 2 =
      ((11 * max face.width face.height + 5 : Int) : ℚ) / ((10 : ℕ) : ℚ) := by
    have h3 : (1.1 : ℚ) = 11 / 10 := by norm_num
    rw [h3]
    push_cast
    ring
  rw [h2, Rat.floor_intCast_div_natCast]
  norm_num

/-- `ProcessMessage` (processor.rs lines 13-17). -/
inductive ProcessMessage where
  | Progress : String → Nat → ProcessMessage
  | Complete : ProcessMessage
  | Error : String → ProcessMessage
  deriving DecidableEq

/-- The outcome of `imgcodecs::imread` on one file: the call itself can fail
(`failure`), succeed with an empty raster (`empty`, how OpenCV reports an
unreadable or corrupt file), or produce a raster with the given extents. -/
inductive DecodeResult where
  | failure : String → DecodeResult
  | empty : DecodeResult
  | ok : ImageDims → DecodeResult
  deriving DecidableEq

/-- One input file together with the behaviour of the opaque external
capabilities on it: `decode` is the `imread` outcome, `detect` the outcome of
grayscale conversion plus `detect_multi_scale` (either of which can fail),
and `write i` the outcome of `Mat::roi` plus `imwrite` for face index `i`
(`none` = success). -/
structure ImageFile where
  path : String
  filename : String
  stem : String
  ext : String
  decode : DecodeResult
  detect : Except String (List Rect)
  write : Nat → Option String

/-- One export artifact: the file written by `imwrite`, named
`{dst}/{stem}_face_{index+1}.{ext}` and holding the padded crop region. -/
structure Artifact where
  name : String
  region : Rect
  deriving DecidableEq

/-- One observable step of the pipeline, in execution order: a message sent
on the progress channel, or an export artifact written to disk. -/
inductive Action where
  | send : ProcessMessage → Action
  | write : Artifact → Action
  deriving DecidableEq

/-- The crop-and-save loop over the detected faces (processor.rs lines
172-180): for each face, compute the padded rectangle, crop (`Mat::roi`) and
save (`imwrite`); the first failing crop or write aborts the file via `?`. -/
def cropFaces (dst stem ext : String) (wr : Nat → Option String)
    (image : ImageDims) : List Rect → Nat → List Action × Except String Unit
  | [], _ => ([], Except.ok ())
  | face :: rest, idx =>
    match wr idx with
    | some e => ([], Except.error e)
    | none =>
      let artifact : Artifact :=
        { name := dst ++ "/" ++ stem ++ "_face_" ++ toString (idx + 1) ++ "." ++ ext,
          region := calculate_padded_rect face image }
      let next := cropFaces dst stem ext wr image rest (idx + 1)
      (Action.write artifact :: next.1, next.2)

/-- `process_single_image` (processor.rs lines 118-183), as the list of
observable actions it performs plus its `Result`: decode; on an empty raster
return `Ok` silently; detect; send `Progress(filename, faceCount)`; then
crop and save every detected face. -/
def process_single_image (dst : String) (f : ImageFile) :
    List Action × Except String Unit :=
  match f.decode with
  | DecodeResult.failure e => ([], Except.error e)
  | DecodeResult.empty => ([], Except.ok ())
  | DecodeResult.ok dims =>
    match f.detect with
    | Except.error e => ([], Except.error e)
    | Except.ok faces =>
      let rest := cropFaces dst f.stem f.ext f.write dims faces 0
      (Action.send (ProcessMessage.Progress f.filename faces.length) :: rest.1, rest.2)

/-- The per-file loop of `process_images_with_progress` (processor.rs lines
57-82): process each entry in order; on the first hard failure send
`Error("Error processing {path}: {e}")` and return `Err`; after the last
entry send `Complete`. -/
def process_entries (dst : String) : List ImageFile → List Action × Except String Unit
  | [] => ([Action.send ProcessMessage.Complete], Except.ok ())
  | f :: rest =>
    let r := process_single_image dst f
    match r.2 with
    | Except.ok _ =>
      let next := process_entries dst rest
      (r.1 ++ next.1, next.2)
    | Except.error e =>
      (r.1 ++ [Action.send (ProcessMessage.Error
          ("Error processing " ++ f.path ++ ": " ++ e))], Except.error e)

/-- `process_images_with_progress` (processor.rs lines 23-83) on the already
collected entry list: an empty list sends `Error("No valid image files
found.")` and returns `Ok`; otherwise the per-file loop runs. -/
def process_images_with_progress (dst : String) (entries : List ImageFile) :
    List Action × Except String Unit :=
  if entries.isEmpty then
    ([Action.send (ProcessMessage.Error "No valid image files found.")], Except.ok ())
  else process_entries dst entries

/-- The messages sent on the progress channel during a trace, in order. -/
def eventsOf (tr : List Action) : List ProcessMessage :=
  tr.filterMap fun a => match a with
    | Action.send m => some m
    | Action.write _ => none

/-- The export artifacts written during a trace, in order. -/
def writesOf (tr : List Action) : List Artifact :=
  tr.filterMap fun a => match a with
    | Action.send _ => none
    | Action.write art => some art

/-- The spawned GUI worker (gui.rs lines 143-147): run the processor with the
channel attached, and if it returns `Err(e)`, additionally send
`Error(e.to_string())` on the same channel. Yields the full message sequence
delivered on the channel for the run. -/
def gui_process_images (dst : String) (entries : List ImageFile) :
    List ProcessMessage :=
  let r := process_images_with_progress dst entries
  match r.2 with
  | Except.ok _ => eventsOf r.1
  | Except.error e => eventsOf r.1 ++ [ProcessMessage.Error e]

/-- `Complete` and `Error` are the terminal messages. -/
def ProcessMessage.isTerminal : ProcessMessage → Bool
  | ProcessMessage.Complete => true
  | ProcessMessage.Error _ => true
  | ProcessMessage.Progress _ _ => false

/-- Recognises a `Progress` message. -/
def ProcessMessage.isProgressEvent : ProcessMessage → Bool
  | ProcessMessage.Progress _ _ => true
  | _ => false

/-- The ordering invariant claimed for the progress channel: zero or more
`Progress` messages followed by exactly one terminal message. -/
def wellFormedEvents (es : List ProcessMessage) : Bool :=
  match es.getLast? with
  | none => false
  | some t => t.isTerminal && es.dropLast.all (fun m => m.isProgressEvent)

/-- Recognises an artifact-write step of a trace. -/
def Action.isWriteStep : Action → Bool
  | Action.write _ => true
  | Action.send _ => false

/-- Recognises the sending of a `Progress` message in a trace. -/
def Action.isProgressSend : Action → Bool
  | Action.send (ProcessMessage.Progress _ _) => true
  | _ => false

/-- Every `Progress` send of the trace happens after every artifact write. -/
def progressAfterAllWrites (tr : List Action) : Prop :=
  ∀ i j : Fin tr.length, (tr.get i).isProgressSend = true →
    (tr.get j).isWriteStep = true → (j : Nat) < (i : Nat)

instance (tr : List Action) : Decidable (progressAfterAllWrites tr) := by
  unfold progressAfterAllWrites; infer_instance

/-- A file on which every external capability succeeds: the decode yields a
raster, detection yields a face list, and every crop write succeeds. -/
def fileOk (f : ImageFile) : Prop :=
  (∃ dims, f.decode = DecodeResult.ok dims) ∧
    (∃ faces, f.detect = Except.ok faces) ∧ ∀ i, f.write i = none

/-- The number of faces detection yields on a file. -/
def faceCount (f : ImageFile) : Nat :=
  match f.detect with
  | Except.ok faces => faces.length
  | Except.error _ => 0

lemma eventsOf_nil : eventsOf [] = [] := rfl

lemma eventsOf_cons_send (m : ProcessMessage) (tr : List Action) :
    eventsOf (Action.send m :: tr) = m :: eventsOf tr := by
  simp [eventsOf]

lemma eventsOf_cons_write (a : Artifact) (tr : List Action) :
    eventsOf (Action.write a :: tr) = eventsOf tr := by
  simp [eventsOf]

lemma eventsOf_append (s t : List Action) :
    eventsOf (s ++ t) = eventsOf s ++ eventsOf t := by
  simp [eventsOf]

lemma writesOf_cons_send (m : ProcessMessage) (tr : List Action) :
    writesOf (Action.send m :: tr) = writesOf tr := by
  simp [writesOf]

lemma writesOf_cons_write (a : Artifact) (tr : List Action) :
    writesOf (Action.write a :: tr) = a :: writesOf tr := by
  simp [writesOf]

lemma writesOf_append (s t : List Action) :
    writesOf (s ++ t) = writesOf s ++ writesOf t := by
  simp [writesOf]

/-- When every crop write succeeds, the crop loop sends no messages, writes
one artifact per face, and succeeds. -/
lemma cropFaces_ok (dst stem ext : String) (wr : Nat → Option String)
    (image : ImageDims) (faces : List Rect) (idx : Nat)
    (hw : ∀ i, wr i = none) :
    eventsOf (cropFaces dst stem ext wr image faces idx).1 = [] ∧
    (writesOf (cropFaces dst stem ext wr image faces idx).1).length = faces.length ∧
    (cropFaces dst stem ext wr image faces idx).2 = Except.ok () := by
  induction faces generalizing idx with
  | nil => simp [cropFaces, eventsOf, writesOf]
  | cons face rest ih =>
    have hr := ih (idx + 1)
    simp only [cropFaces, hw idx]
    simp [eventsOf_cons_write, writesOf_cons_write, hr.1, hr.2.1, hr.2.2]

/-- Every step of the crop loop's trace is an artifact write. -/
lemma cropFaces_all_writes (dst stem ext : String) (wr : Nat → Option String)
    (image : ImageDims) (faces : List Rect) (idx : Nat) :
    ∀ a ∈ (cropFaces dst stem ext wr image faces idx).1, a.isWriteStep = true := by
  induction faces generalizing idx with
  | nil => intro a ha; simp [cropFaces] at ha
  | cons face rest ih =>
    intro a ha
    unfold cropFaces at ha
    cases hwr : wr idx with
    | some e => rw [hwr] at ha; simp at ha
    | none =>
      rw [hwr] at ha
      simp only [List.mem_cons] at ha
      cases ha with
      | inl h => subst h; rfl
      | inr h => exact ih (idx + 1) a h

/-- On a fully successful file, `process_single_image` sends exactly one
`Progress` message, writes one artifact per detected face, and returns ok. -/
lemma process_single_image_ok (dst : String) (f : ImageFile) (h : fileOk f) :
    eventsOf (process_single_image dst f).1
      = [ProcessMessage.Progress f.filename (faceCount f)] ∧
    (writesOf (process_single_image dst f).1).length = faceCount f ∧
    (process_single_image dst f).2 = Except.ok () := by
  obtain ⟨⟨dims, hd⟩, ⟨faces, hf⟩, hw⟩ := h
  have hc := cropFaces_ok dst f.stem f.ext f.write dims faces 0 hw
  unfold process_single_image faceCount
  rw [hd, hf]
  simp [eventsOf_cons_send, writesOf_cons_send, hc.1, hc.2.1, hc.2.2]

/-- On a batch in which every file succeeds, the per-file loop sends one
`Progress` per file in input order followed by `Complete`, writes one
artifact per detected face, and returns ok. -/
lemma process_entries_all_ok (dst : String) (files : List ImageFile)
    (h : ∀ f ∈ files, fileOk f) :
    eventsOf (process_entries dst files).1
      = files.map (fun f => ProcessMessage.Progress f.filename (faceCount f))
        ++ [ProcessMessage.Complete] ∧
    (writesOf (process_entries dst files).1).length = (files.map faceCount).sum ∧
    (process_entries dst files).2 = Except.ok () := by
  induction files with
  | nil => simp [process_entries, eventsOf, writesOf]
  | cons f rest ih =>
    have hf := process_single_image_ok dst f (h f (by simp))
    have hrest := ih (fun g hg => h g (by simp [hg]))
    simp only [process_entries, hf.2.2]
    simp [eventsOf_append, writesOf_append, hf.1, hf.2.1,
      hrest.1, hrest.2.1, hrest.2.2]

/-- C1: running the batch pipeline over a non-empty list of N images on each
of which decoding, detection and every crop write succeed produces exactly
`Σ faceCount` export artifacts, exactly N `Progress` messages — one per
image, in input order, each reporting that image's face count — followed by
exactly one `Complete` message, and the run returns ok. -/
theorem c1_batch_pipeline_success (dst : String) (entries : List ImageFile)
    (hne : entries ≠ []) (h : ∀ f ∈ entries, fileOk f) :
    eventsOf (process_images_with_progress dst entries).1
      = entries.map (fun f => ProcessMessage.Progress f.filename (faceCount f))
        ++ [ProcessMessage.Complete] ∧
    (writesOf (process_images_with_progress dst entries).1).length
      = (entries.map faceCount).sum ∧
    (process_images_with_progress dst entries).2 = Except.ok () := by
  have hloop := process_entries_all_ok dst entries h
  have hemp : entries.isEmpty = false := by
    cases entries with
    | nil => exact absurd rfl hne
    | cons a l => rfl
  unfold process_images_with_progress
  rw [hemp]
  simpa using hloop

/-- The two-face sample file used by the C1 witness. -/
def twoFaceFile : ImageFile :=
  { path := "in/a.png", filename := "a.png", stem := "a", ext := "png",
    decode := DecodeResult.ok ⟨100, 100⟩,
    detect := Except.ok [⟨10, 10, 20, 20⟩, ⟨60, 60, 5, 5⟩],
    write := fun _ => none }

/-- A fully successful file on which detection finds no face. -/
def zeroFaceFile : ImageFile :=
  { path := "in/b.png", filename := "b.png", stem := "b", ext := "png",
    decode := DecodeResult.ok ⟨50, 50⟩,
    detect := Except.ok [],
    write := fun _ => none }

/-- Witness for C1 on the concrete batch `[twoFaceFile, zeroFaceFile]`. -/
theorem c1_batch_pipeline_success_witness :
    eventsOf (process_images_with_progress "out" [twoFaceFile, zeroFaceFile]).1
      = [twoFaceFile, zeroFaceFile].map
          (fun f => ProcessMessage.Progress f.filename (faceCount f))
        ++ [ProcessMessage.Complete] ∧
    (writesOf (process_images_with_progress "out" [twoFaceFile, zeroFaceFile]).1).length
      = ([twoFaceFile, zeroFaceFile].map faceCount).sum ∧
    (process_images_with_progress "out" [twoFaceFile, zeroFaceFile]).2
      = Except.ok () :=
  c1_batch_pipeline_success "out" [twoFaceFile, zeroFaceFile] (by simp)
    (by
      intro f hf
      simp only [List.mem_cons, List.not_mem_nil, or_false] at hf
      cases hf with
      | inl h => exact h ▸ ⟨⟨_, rfl⟩, ⟨_, rfl⟩, fun i => rfl⟩
      | inr h => exact h ▸ ⟨⟨_, rfl⟩, ⟨_, rfl⟩, fun i => rfl⟩)

/-- A file on which the detector invocation fails. -/
def detectFailFile : ImageFile :=
  { path := "in/a.png", filename := "a.png", stem := "a", ext := "png",
    decode := DecodeResult.ok ⟨100, 100⟩,
    detect := Except.error "detect failed",
    write := fun _ => none }

/-- C4 (code bug): on a batch whose single file suffers a hard detection
failure, the GUI run delivers two `Error` messages on the progress channel —
one sent by the processor (carrying the filename) and a second one re-sent
by the GUI worker from the returned `Err` (without the filename) — so the
delivered sequence violates the claimed "exactly one terminal event"
invariant (`wellFormedEvents` is false). -/
theorem c4_gui_sends_second_error :
    gui_process_images "out" [detectFailFile]
      = [ProcessMessage.Error "Error processing in/a.png: detect failed",
         ProcessMessage.Error "detect failed"] ∧
    wellFormedEvents (gui_process_images "out" [detectFailFile]) = false := by
  exact ⟨rfl, rfl⟩

/-- A fully successful file with exactly one detected face. -/
def oneFaceFile : ImageFile :=
  { path := "in/c.png", filename := "c.png", stem := "c", ext := "png",
    decode := DecodeResult.ok ⟨100, 100⟩,
    detect := Except.ok [⟨10, 10, 20, 20⟩],
    write := fun _ => none }

/-- C5 counterexample: on a successfully decoded file with one face whose
crop write succeeds, the `Progress` message is sent first and the artifact
is written afterwards, so the `Progress` send does not come after all of the
file's crop writes. -/
theorem c5_counterexample :
    eventsOf (process_single_image "out" oneFaceFile).1
      = [ProcessMessage.Progress "c.png" 1] ∧
    (writesOf (process_single_image "out" oneFaceFile).1).length = 1 ∧
    ¬ progressAfterAllWrites (process_single_image "out" oneFaceFile).1 := by
  refine ⟨rfl, rfl, ?_⟩
  decide

/-- C5 amended: for every successfully decoded file, the
`Progress(filename, faceCount)` message is emitted right after detection and
before any of that file's crop artifacts are written; it is emitted
regardless of face count, including zero. -/
theorem c5_amended_progress_before_writes (dst : String) (f : ImageFile)
    (dims : ImageDims) (faces : List Rect)
    (hd : f.decode = DecodeResult.ok dims) (hf : f.detect = Except.ok faces) :
    ∃ rest, (process_single_image dst f).1
        = Action.send (ProcessMessage.Progress f.filename faces.length) :: rest ∧
      ∀ a ∈ rest, a.isWriteStep = true := by
  unfold process_single_image
  rw [hd, hf]
  exact ⟨(cropFaces dst f.stem f.ext f.write dims faces 0).1, rfl,
    cropFaces_all_writes dst f.stem f.ext f.write dims faces 0⟩

/-- Witness for the amended C5 on a zero-face file. -/
theorem c5_amended_progress_before_writes_witness :
    ∃ rest, (process_single_image "out" zeroFaceFile).1
        = Action.send
            (ProcessMessage.Progress zeroFaceFile.filename (List.length ([] : List Rect)))
          :: rest ∧
      ∀ a ∈ rest, a.isWriteStep = true :=
  c5_amended_progress_before_writes "out" zeroFaceFile ⟨50, 50⟩ [] rfl rfl

/-- A file on which the decode call itself returns an error. -/
def decodeFailFile : ImageFile :=
  { path := "in/broken.png", filename := "broken.png", stem := "broken", ext := "png",
    decode := DecodeResult.failure "decode error",
    detect := Except.ok [],
    write := fun _ => none }

/-- C7 counterexample: a file whose decode call fails is not skipped
silently — the loop sends an `Error` message naming it, returns the error,
and never reaches the next file, so the run differs from the run without
that file. -/
theorem c7_counterexample :
    eventsOf (process_entries "out" [decodeFailFile, zeroFaceFile]).1
      = [ProcessMessage.Error "Error processing in/broken.png: decode error"] ∧
    (process_entries "out" [decodeFailFile, zeroFaceFile]).2
      = Except.error "decode error" ∧
    (process_entries "out" [decodeFailFile, zeroFaceFile]).1
      ≠ (process_entries "out" [zeroFaceFile]).1 := by
  refine ⟨rfl, rfl, ?_⟩
  decide

/-- C7 amended: a file whose decode succeeds but yields an empty raster is
skipped silently — it contributes no message, no artifact and no error, and
the batch continues exactly as if the file were absent. (A failing decode
call, by contrast, aborts the batch as a hard failure.) -/
theorem c7_amended_empty_raster_skipped (dst : String) (f : ImageFile)
    (pre post : List ImageFile) (he : f.decode = DecodeResult.empty) :
    process_single_image dst f = ([], Except.ok ()) ∧
    process_entries dst (pre ++ f :: post) = process_entries dst (pre ++ post) := by
  have h1 : process_single_image dst f = ([], Except.ok ()) := by
    unfold process_single_image; rw [he]
  refine ⟨h1, ?_⟩
  induction pre with
  | nil => simp [process_entries, h1]
  | cons g rest ih =>
    simp only [List.cons_append, process_entries]
    cases hg : (process_single_image dst g).2 with
    | ok u => simp [hg, ih]
    | error e => simp [hg]

/-- A file whose decode succeeds with an empty raster. -/
def emptyRasterFile : ImageFile :=
  { path := "in/empty.png", filename := "empty.png", stem := "empty", ext := "png",
    decode := DecodeResult.empty,
    detect := Except.ok [],
    write := fun _ => none }

/-- Witness for the amended C7: an empty-raster file in the middle of a
batch is skipped. -/
theorem c7_amended_empty_raster_skipped_witness :
    process_single_image "out" emptyRasterFile = ([], Except.ok ()) ∧
    process_entries "out" ([oneFaceFile] ++ emptyRasterFile :: [zeroFaceFile])
      = process_entries "out" ([oneFaceFile] ++ [zeroFaceFile]) :=
  c7_amended_empty_raster_skipped "out" emptyRasterFile [oneFaceFile] [zeroFaceFile] rfl

/-- C9: on an empty collected file list, the pipeline sends exactly one
`Error("No valid image files found.")` message, sends no `Progress` and no
`Complete`, performs no per-file work (its whole trace is that one send, in
particular it writes no artifact), and returns ok. -/
theorem c9_empty_collector_single_error (dst : String) :
    process_images_with_progress dst []
      = ([Action.send (ProcessMessage.Error "No valid image files found.")],
         Except.ok ()) ∧
    eventsOf (process_images_with_progress dst []).1
      = [ProcessMessage.Error "No valid image files found."] ∧
    writesOf (process_images_with_progress dst []).1 = [] :=
  ⟨rfl, rfl, rfl⟩

/-- C2: for every valid rectangle `r` (all coordinates non-negative, extents
non-negative, contained in the `image.cols × image.rows` raster), the padded
crop rectangle returned by `calculate_padded_rect r image` is fully contained
in `[0, cols] × [0, rows]`: `0 ≤ left ≤ right ≤ cols` and
`0 ≤ top ≤ bottom ≤ rows`, where `right = x + width`, `bottom = y + height`
of the returned rectangle. -/
theorem c2_padded_rect_within_bounds (face : Rect) (image : ImageDims)
    (hx : 0 ≤ face.x) (hy : 0 ≤ face.y)
    (hw : 0 ≤ face.width) (hh : 0 ≤ face.height)
    (hr : face.x + face.width ≤ image.cols)
    (hb : face.y + face.height ≤ image.rows) :
    0 ≤ (calculate_padded_rect face image).x ∧
    0 ≤ (calculate_padded_rect face image).width ∧
    (calculate_padded_rect face image).x + (calculate_padded_rect face image).width
      ≤ image.cols ∧
    0 ≤ (calculate_padded_rect face image).y ∧
    0 ≤ (calculate_padded_rect face image).height ∧
    (calculate_padded_rect face image).y + (calculate_padded_rect face image).height
      ≤ image.rows := by
  have hp : 0 ≤ padding face := padding_nonneg face (by omega)
  unfold calculate_padded_rect
  dsimp only
  omega

/-- Witness for C2 at the concrete rectangle `(40, 40, 10, 10)` inside a
`200 × 200` image. -/
theorem c2_padded_rect_within_bounds_witness :
    0 ≤ (calculate_padded_rect ⟨40, 40, 10, 10⟩ ⟨200, 200⟩).x ∧
    0 ≤ (calculate_padded_rect ⟨40, 40, 10, 10⟩ ⟨200, 200⟩).width ∧
    (calculate_padded_rect ⟨40, 40, 10, 10⟩ ⟨200, 200⟩).x
      + (calculate_padded_rect ⟨40, 40, 10, 10⟩ ⟨200, 200⟩).width ≤ (200 : Int) ∧
    0 ≤ (calculate_padded_rect ⟨40, 40, 10, 10⟩ ⟨200, 200⟩).y ∧
    0 ≤ (calculate_padded_rect ⟨40, 40, 10, 10⟩ ⟨200, 200⟩).height ∧
    (calculate_padded_rect ⟨40, 40, 10, 10⟩ ⟨200, 200⟩).y
      + (calculate_padded_rect ⟨40, 40, 10, 10⟩ ⟨200, 200⟩).height ≤ (200 : Int) :=
  c2_padded_rect_within_bounds ⟨40, 40, 10, 10⟩ ⟨200, 200⟩
    (by decide) (by decide) (by decide) (by decide) (by decide) (by decide)

/-- C3: the padding applied by `calculate_padded_rect` equals
`round(1.1 × max(width, height))` (for the non-negative extents a detection
produces), and when the unclamped padded rectangle stays within the image
bounds, each side of the result is exactly the corresponding side of the
input rectangle moved outward by that padding. -/
theorem c3_padding_round_and_symmetric_expand (face : Rect) (image : ImageDims)
    (hm : 0 ≤ max face.width face.height)
    (h1 : 0 ≤ face.x - padding face) (h2 : 0 ≤ face.y - padding face)
    (h3 : face.x + face.width + padding face ≤ image.cols)
    (h4 : face.y + face.height + padding face ≤ image.rows) :
    padding face = round ((1.1 : ℚ) * ((max face.width face.height : Int) : ℚ)) ∧
    (calculate_padded_rect face image).x = face.x - padding face ∧
    (calculate_padded_rect face image).y = face.y - padding face ∧
    (calculate_padded_rect face image).x + (calculate_padded_rect face image).width
      = face.x + face.width + padding face ∧
    (calculate_padded_rect face image).y + (calculate_padded_rect face image).height
      = face.y + face.height + padding face := by
  refine ⟨padding_eq_round face hm, ?_, ?_, ?_, ?_⟩ <;>
    (unfold calculate_padded_rect; dsimp only; omega)

/-- Witness for C3 at the centered rectangle `(30, 30, 20, 20)` in a
`200 × 200` image, whose padding is `round(1.1 × 20) = 22` and whose
unclamped padded rectangle `[8, 72] × [8, 72]` stays within bounds. -/
theorem c3_padding_round_and_symmetric_expand_witness :
    padding ⟨30, 30, 20, 20⟩
      = round ((1.1 : ℚ) * ((max (20 : Int) (20 : Int) : Int) : ℚ)) ∧
    (calculate_padded_rect ⟨30, 30, 20, 20⟩ ⟨200, 200⟩).x
      = (30 : Int) - padding ⟨30, 30, 20, 20⟩ ∧
    (calculate_padded_rect ⟨30, 30, 20, 20⟩ ⟨200, 200⟩).y
      = (30 : Int) - padding ⟨30, 30, 20, 20⟩ ∧
    (calculate_padded_rect ⟨30, 30, 20, 20⟩ ⟨200, 200⟩).x
      + (calculate_padded_rect ⟨30, 30, 20, 20⟩ ⟨200, 200⟩).width
      = (30 : Int) + 20 + padding ⟨30, 30, 20, 20⟩ ∧
    (calculate_padded_rect ⟨30, 30, 20, 20⟩ ⟨200, 200⟩).y
      + (calculate_padded_rect ⟨30, 30, 20, 20⟩ ⟨200, 200⟩).height
      = (30 : Int) + 20 + padding ⟨30, 30, 20, 20⟩ :=
  c3_padding_round_and_symmetric_expand ⟨30, 30, 20, 20⟩ ⟨200, 200⟩
    (by decide) (by decide) (by decide) (by decide) (by decide)

/-- C10 counterexample: the rectangle `(x, y, width, height) = (20, 20, -20, -20)`
satisfies the claim's hypotheses verbatim (`0 ≤ x`, `0 ≤ y`,
`x + width ≤ cols`, `y + height ≤ rows` for a `30 × 30` image), yet the
rectangle returned by `calculate_padded_rect` does not contain it: the
padding `round(1.1 × -20) = -22` is negative, so the result's left edge `42`
lies to the right of `x = 20`. -/
theorem c10_counterexample :
    (0 ≤ (Rect.mk 20 20 (-20) (-20)).x ∧ 0 ≤ (Rect.mk 20 20 (-20) (-20)).y ∧
      (Rect.mk 20 20 (-20) (-20)).x + (Rect.mk 20 20 (-20) (-20)).width
        ≤ (ImageDims.mk 30 30).cols ∧
      (Rect.mk 20 20 (-20) (-20)).y + (Rect.mk 20 20 (-20) (-20)).height
        ≤ (ImageDims.mk 30 30).rows) ∧
    ¬ rectContains (calculate_padded_rect (Rect.mk 20 20 (-20) (-20)) (ImageDims.mk 30 30))
        (Rect.mk 20 20 (-20) (-20)) := by
  decide

/-- C10 amended: for every detection rectangle `r` within the image bounds
whose larger extent is non-negative (so the padding is non-negative — true of
every rectangle the detector can produce), `calculate_padded_rect r image`
contains `r`. -/
theorem c10_amended_padded_rect_contains (face : Rect) (image : ImageDims)
    (hm : 0 ≤ max face.width face.height)
    (hx : 0 ≤ face.x) (hy : 0 ≤ face.y)
    (hr : face.x + face.width ≤ image.cols)
    (hb : face.y + face.height ≤ image.rows) :
    rectContains (calculate_padded_rect face image) face := by
  have hp : 0 ≤ padding face := padding_nonneg face hm
  unfold rectContains calculate_padded_rect
  dsimp only
  omega

/-- Witness for the amended C10 at the rectangle `(5, 5, 10, 10)` inside a
`100 × 100` image. -/
theorem c10_amended_padded_rect_contains_witness :
    rectContains (calculate_padded_rect ⟨5, 5, 10, 10⟩ ⟨100, 100⟩) ⟨5, 5, 10, 10⟩ :=
  c10_amended_padded_rect_contains ⟨5, 5, 10, 10⟩ ⟨100, 100⟩
    (by decide) (by decide) (by decide) (by decide) (by decide)

/-! ## FileSet collector (processor.rs lines 85-116) -/

/-- What a file-system entry is: a regular file, a directory, or anything
else (the distinctions `is_file` / `is_dir` draw). -/
inductive EntryKind where
  | file
  | directory
  | other
  deriving DecidableEq

/-- A file-system path as the collector observes it: its name, its extension
(`Path::extension`, `none` when absent) and what kind of entry it denotes. -/
structure PathInfo where
  pname : String
  pext : Option String
  pkind : EntryKind
  deriving DecidableEq

/-- The input path handed to `collect_image_files`: a regular file, a
directory with its direct child entries in enumeration order, or neither. -/
inductive InputPath where
  | file : PathInfo → InputPath
  | dir : List PathInfo → InputPath
  | other : InputPath

/-- Rust `str::to_lowercase`, character by character (the extensions under
comparison are ASCII). -/
def to_lowercase (s : String) : String :=
  String.mk (s.data.map Char.toLower)

/-- `is_valid_image` (processor.rs lines 110-116): the lowercased extension
is `png`, `jpg` or `jpeg`; a path without extension is not a valid image. -/
def is_valid_image (ext : Option String) : Bool :=
  match ext with
  | some e =>
      to_lowercase e == "png" || to_lowercase e == "jpg" || to_lowercase e == "jpeg"
  | none => false

/-- `collect_image_files` (processor.rs lines 85-108): a regular file is kept
iff it passes `is_valid_image`; a directory yields its direct child entries
passing `is_valid_image` (note: the entry kind is never checked); anything
else yields the empty list. The function returns `Ok` in all these cases. -/
def collect_image_files : InputPath → List PathInfo
  | InputPath.file info => if is_valid_image info.pext then [info] else []
  | InputPath.dir children => children.filter (fun c => is_valid_image c.pext)
  | InputPath.other => []

/-- The behaviour the claim asserts for the directory branch: keep only the
direct child entries that are regular files with a whitelisted extension. -/
def isFileEntry (c : PathInfo) : Bool :=
  match c.pkind with
  | EntryKind.file => true
  | _ => false

/-- A directory entry that is itself a directory named with a `.png`
extension. -/
def subdirPng : PathInfo :=
  { pname := "faces.png", pext := some "png", pkind := EntryKind.directory }

/-- C8 counterexample: `collect_image_files` never inspects the entry kind of
a directory's children, so a subdirectory named `faces.png` is returned even
though it is not a file; the claimed files-only result would be empty. -/
theorem c8_counterexample :
    collect_image_files (InputPath.dir [subdirPng]) = [subdirPng] ∧
    subdirPng.pkind = EntryKind.directory ∧
    collect_image_files (InputPath.dir [subdirPng])
      ≠ [subdirPng].filter (fun c => isFileEntry c && is_valid_image c.pext) := by
  refine ⟨rfl, rfl, ?_⟩
  decide

/-- C8 amended: for a regular file the collector returns the one-element
sequence containing it iff its extension matches `png`, `jpg` or `jpeg`
case-insensitively; for a directory it returns exactly the direct child
entries — of any kind, including subdirectories — whose extension matches
that whitelist; for anything else it returns the empty sequence, not an
error. -/
theorem c8_amended_collector (info : PathInfo) (children : List PathInfo)
    (c : PathInfo) (e : String) :
    (collect_image_files (InputPath.file info) = [info]
      ↔ is_valid_image info.pext = true) ∧
    (collect_image_files (InputPath.file info) = []
      ↔ is_valid_image info.pext = false) ∧
    (c ∈ collect_image_files (InputPath.dir children)
      ↔ c ∈ children ∧ is_valid_image c.pext = true) ∧
    collect_image_files InputPath.other = [] ∧
    is_valid_image (some e)
      = (to_lowercase e == "png" || to_lowercase e == "jpg" || to_lowercase e == "jpeg") ∧
    is_valid_image none = false := by
  refine ⟨?_, ?_, ?_, rfl, rfl, rfl⟩
  · cases h : is_valid_image info.pext <;> simp [collect_image_files, h]
  · cases h : is_valid_image info.pext <;> simp [collect_image_files, h]
  · simp [collect_image_files, List.mem_filter]

/-! ## Thumbnail gallery and LRU texture cache (gallery.rs)

File paths are abstracted to numeric identifiers (nothing in the gallery
logic inspects the structure of a `PathBuf`), and `egui::TextureHandle`s to
the numeric identity of the decoded texture they keep alive: each
`ctx.load_texture` call yields a fresh identifier (`next_tex`). A decoded
thumbnail is resident while some handle to it exists — in a `PhotoEntry`'s
`thumb_tex` mirror or in the texture cache. Display-only `PhotoEntry`
fields (`thumb_size`, `last_accessed`) are omitted. -/

/-- `PhotoEntry` (gallery.rs lines 10-27), restricted to the fields the
cache claims concern. -/
structure PhotoEntry where
  path : Nat
  thumb_tex : Option Nat
  deriving DecidableEq

/-- The `Gallery` state (gallery.rs lines 29-38): the photo list, the
path-to-index map, the LRU texture cache (most recently used first), and
the supply of fresh texture identifiers. -/
structure Gallery where
  photos : List PhotoEntry
  photo_map : List (Nat × Nat)
  texture_cache : List (Nat × Nat)
  next_tex : Nat

/-- `Gallery::new` (gallery.rs lines 41-53): everything empty; the cache is
constructed with capacity 100. -/
def Gallery.new : Gallery :=
  { photos := [], photo_map := [], texture_cache := [], next_tex := 0 }

/-- `lru::LruCache::put` on a cache of capacity `cap`, represented as an
association list in most-recently-used-first order: an existing entry for
the key is removed (its value is superseded), and if the cache is still at
capacity the least recently used entry — the last — is evicted before the
new entry is inserted at the front. -/
def lruPut (cap : Nat) (k v : Nat) (c : List (Nat × Nat)) : List (Nat × Nat) :=
  let c1 := c.eraseP (fun p => p.1 == k)
  if c1.length < cap then (k, v) :: c1 else (k, v) :: c1.dropLast

/-- `HashMap::get` on the path-to-index map. -/
def assocFind (m : List (Nat × Nat)) (k : Nat) : Option Nat :=
  match m.find? (fun p => p.1 == k) with
  | some p => some p.2
  | none => none

/-- `Gallery::load_images_from_directory` (gallery.rs lines 55-105) after
the directory scan produced `paths` (enumeration plus extension filtering
are external here): clear the photos, the map and the texture cache, then
register one pending `PhotoEntry` per path, mapping each path to its index.
The background decode thread it spawns is modelled by the message list later
fed to `Gallery.update`. -/
def Gallery.load_images_from_directory (g : Gallery) (paths : List Nat) : Gallery :=
  { photos := paths.map (fun p => { path := p, thumb_tex := none }),
    photo_map := paths.enum.map (fun p => (p.2, p.1)),
    texture_cache := [],
    next_tex := g.next_tex }

/-- `Gallery::update` (gallery.rs lines 107-142) on the messages drained
from the thumbnail channel this tick, in arrival order: for each delivered
`(path, image)` whose path is in the map, load a fresh texture, mirror the
handle into the matching `PhotoEntry`, and `put` it into the texture cache;
messages for unknown paths are discarded. -/
def Gallery.update : Gallery → List Nat → Gallery
  | g, [] => g
  | g, path :: rest =>
    match assocFind g.photo_map path with
    | none => Gallery.update g rest
    | some index =>
      let texture := g.next_tex
      Gallery.update
        { photos := g.photos.modify (fun p => { p with thumb_tex := some texture }) index,
          photo_map := g.photo_map,
          texture_cache := lruPut 100 path texture g.texture_cache,
          next_tex := texture + 1 } rest

/-- The identities of the decoded thumbnails kept alive by some handle in
the gallery — mirrored in a `PhotoEntry` or held by the texture cache. -/
def residentTextures (g : Gallery) : List Nat :=
  ((g.photos.filterMap PhotoEntry.thumb_tex) ++ g.texture_cache.map (fun p => p.2)).dedup

lemma lruPut_length_le (cap k v : Nat) (c : List (Nat × Nat))
    (h : c.length ≤ cap) (hcap : 0 < cap) : (lruPut cap k v c).length ≤ cap := by
  unfold lruPut
  have he : (c.eraseP (fun p => p.1 == k)).length ≤ c.length :=
    List.length_eraseP_le c
  by_cases hlt : (c.eraseP (fun p => p.1 == k)).length < cap
  · rw [if_pos hlt]
    simpa using hlt
  · rw [if_neg hlt]
    have := List.length_dropLast (c.eraseP (fun p => p.1 == k))
    simp only [List.length_cons, this]
    omega

lemma gallery_update_cache_le (g : Gallery) (msgs : List Nat)
    (h : g.texture_cache.length ≤ 100) :
    (Gallery.update g msgs).texture_cache.length ≤ 100 := by
  induction msgs generalizing g with
  | nil => simpa [Gallery.update] using h
  | cons path rest ih =>
    cases hfind : assocFind g.photo_map path with
    | none =>
      simp only [Gallery.update, hfind]
      exact ih g h
    | some index =>
      simp only [Gallery.update, hfind]
      exact ih _ (lruPut_length_le 100 path g.next_tex g.texture_cache h (by omega))

lemma lruPut_full_fresh (k v : Nat) (c : List (Nat × Nat))
    (hlen : c.length = 100) (hfresh : ∀ p ∈ c, p.1 ≠ k) :
    lruPut 100 k v c = (k, v) :: c.dropLast := by
  unfold lruPut
  have he : c.eraseP (fun p => p.1 == k) = c := by
    apply List.eraseP_of_forall_not
    intro a ha
    simpa using hfresh a ha
  simp [he, hlen]

set_option maxRecDepth 100000 in
/-- C6 counterexample: start from a freshly scanned gallery of 101 photos
and deliver all 101 thumbnails. The LRU cache holds only 100 of the
textures, but each `PhotoEntry` retains its own cloned handle — including
the one whose cache entry was evicted — so 101 decoded thumbnails remain
resident, exceeding the configured capacity of 100. -/
theorem c6_counterexample :
    100 < (residentTextures
      (Gallery.update
        (Gallery.load_images_from_directory Gallery.new (List.range 101))
        (List.range 101))).length := by
  decide

/-- C6 amended: the LRU texture cache itself never exceeds its capacity of
100 entries across any drained message batch, and putting a fresh key into
a full cache evicts exactly the least-recently-inserted entry (the last);
but `PhotoEntry`s retain their own cloned texture handles, so the total
number of resident decoded thumbnails in the gallery can exceed that
capacity. -/
theorem c6_amended_cache_bounded_lru_evicts_last (g : Gallery) (msgs : List Nat)
    (k v : Nat) (c : List (Nat × Nat))
    (hg : g.texture_cache.length ≤ 100)
    (hc : c.length = 100) (hfresh : ∀ p ∈ c, p.1 ≠ k) :
    (Gallery.update g msgs).texture_cache.length ≤ 100 ∧
    lruPut 100 k v c = (k, v) :: c.dropLast :=
  ⟨gallery_update_cache_le g msgs hg, lruPut_full_fresh k v c hc hfresh⟩

/-- Witness for the amended C6: a freshly loaded two-photo gallery receiving
both thumbnails stays within capacity, and putting key 100 into the full
cache `[(99, 99), ..., (0, 0)]` evicts exactly its last entry. -/
theorem c6_amended_cache_bounded_lru_evicts_last_witness :
    (Gallery.update
      (Gallery.load_images_from_directory Gallery.new [0, 1])
      [0, 1]).texture_cache.length ≤ 100 ∧
    lruPut 100 100 0 ((List.range 100).map (fun i => (99 - i, 99 - i)))
      = (100, 0) :: ((List.range 100).map (fun i => (99 - i, 99 - i))).dropLast :=
  c6_amended_cache_bounded_lru_evicts_last
    (Gallery.load_images_from_directory Gallery.new [0, 1]) [0, 1]
    100 0 ((List.range 100).map (fun i => (99 - i, 99 - i)))
    (by decide) (by decide) (by decide)

end Headshot
